import Mathlib

/-!
Verification of the ImageMonitor2 image crop/edit pipeline and file upload
utilities against their specification.  The TypeScript source is embedded
shallowly: pure numeric code becomes functions over `ℝ`, `ℚ`, `ℤ` and `ℕ`;
canvas pixel operations are modelled as functions on an explicit `Image`
type with exact nearest-neighbour sampling; fallible steps return `Except`.
-/

/-- An RGB colour value, one channel per byte. -/
structure Color where
  r : ℕ
  g : ℕ
  b : ℕ
deriving DecidableEq, Repr

/-- The opaque white background colour `#FFFFFF` used by the compositor. -/
def white : Color := ⟨255, 255, 255⟩

/-- A crop rectangle (the `Area` type of react-easy-crop): origin in pixel
coordinates of the intermediate buffer, plus output dimensions. -/
structure Area where
  x : ℤ
  y : ℤ
  width : ℕ
  height : ℕ
deriving DecidableEq, Repr

/-- A pixel buffer: dimensions plus a colour lookup by (column, row).  Only
coordinates with `0 ≤ x < width` and `0 ≤ y < height` are meaningful. -/
structure Image where
  width : ℕ
  height : ℕ
  px : ℤ → ℤ → Color

/-- Shallow embedding of `getRotatedSize` (src/src/context/AuthContext.tsx,
lines 261-269): the axis-aligned bounding box of a `width × height` image
rotated by `rotation` degrees about its centre, both dimensions rounded up
to the next integer. -/
noncomputable def getRotatedSize (width height rotation : ℝ) : ℤ × ℤ :=
  let rotRad := rotation * Real.pi / 180
  let rotatedWidth := |Real.cos rotRad * width| + |Real.sin rotRad * height|
  let rotatedHeight := |Real.sin rotRad * width| + |Real.cos rotRad * height|
  (⌈rotatedWidth⌉, ⌈rotatedHeight⌉)

/-- At rotation 0 the bounding box of an integer-sized image is the image
size itself. -/
theorem getRotatedSize_rot_zero (w h : ℕ) :
    getRotatedSize w h 0 = ((w : ℤ), (h : ℤ)) := by
  simp [getRotatedSize, Nat.abs_cast]

/-- C1: for every source width `w ≥ 0`, height `h ≥ 0` and rotation angle
`θ` in degrees, `getRotatedSize` returns exactly
`(⌈|cos(θ·π/180)|·w + |sin(θ·π/180)|·h⌉, ⌈|sin(θ·π/180)|·w + |cos(θ·π/180)|·h⌉)`;
in particular, for `θ = 0` and natural `w`, `h` it returns `(w, h)`
exactly. -/
theorem c1_getRotatedSize_formula :
    (∀ w h θ : ℝ, 0 ≤ w → 0 ≤ h →
      getRotatedSize w h θ =
        (⌈|Real.cos (θ * Real.pi / 180)| * w + |Real.sin (θ * Real.pi / 180)| * h⌉,
         ⌈|Real.sin (θ * Real.pi / 180)| * w + |Real.cos (θ * Real.pi / 180)| * h⌉)) ∧
    (∀ w h : ℕ, getRotatedSize w h 0 = ((w : ℤ), (h : ℤ))) := by
  constructor
  · intro w h θ hw hh
    simp [getRotatedSize, abs_mul, abs_of_nonneg hw, abs_of_nonneg hh]
  · exact getRotatedSize_rot_zero

/-- Concrete instance of C1 at width 3, height 4, rotation 0 and at the
integer pair (5, 7). -/
theorem c1_witness :
    ((0:ℝ) ≤ 3 ∧ (0:ℝ) ≤ 4 ∧
      getRotatedSize 3 4 0 =
        (⌈|Real.cos ((0:ℝ) * Real.pi / 180)| * 3 + |Real.sin ((0:ℝ) * Real.pi / 180)| * 4⌉,
         ⌈|Real.sin ((0:ℝ) * Real.pi / 180)| * 3 + |Real.cos ((0:ℝ) * Real.pi / 180)| * 4⌉)) ∧
    getRotatedSize 5 7 0 = (5, 7) :=
  ⟨⟨by norm_num, by norm_num, c1_getRotatedSize_formula.1 3 4 0 (by norm_num) (by norm_num)⟩,
   by exact_mod_cast c1_getRotatedSize_formula.2 5 7⟩

/-- Unfolding lemma for `getRotatedSize`. -/
theorem getRotatedSize_def (w h r : ℝ) :
    getRotatedSize w h r =
      (⌈|Real.cos (r * Real.pi / 180) * w| + |Real.sin (r * Real.pi / 180) * h|⌉,
       ⌈|Real.sin (r * Real.pi / 180) * w| + |Real.cos (r * Real.pi / 180) * h|⌉) := rfl

/-- At rotation 90 the bounding box of an integer-sized image swaps the two
dimensions. -/
theorem getRotatedSize_rot_ninety (w h : ℕ) :
    getRotatedSize w h 90 = ((h : ℤ), (w : ℤ)) := by
  have h90 : (90 : ℝ) * Real.pi / 180 = Real.pi / 2 := by ring
  simp [getRotatedSize, h90, Nat.abs_cast]

/-- For any angle, `|cos x| + |sin x| ≥ 1`. -/
theorem one_le_abs_cos_add_abs_sin (x : ℝ) :
    1 ≤ |Real.cos x| + |Real.sin x| := by
  nlinarith [Real.sin_sq_add_cos_sq x, Real.abs_cos_le_one x, Real.abs_sin_le_one x,
    abs_nonneg (Real.cos x), abs_nonneg (Real.sin x), sq_abs (Real.cos x),
    sq_abs (Real.sin x)]

/-- A rotated side of a square of side `w` is at least `w` before rounding. -/
theorem le_rotated_side (θ : ℝ) (w : ℕ) :
    (w : ℝ) ≤ |Real.cos θ * w| + |Real.sin θ * w| := by
  have h1 := one_le_abs_cos_add_abs_sin θ
  have h2 : (0:ℝ) ≤ w := Nat.cast_nonneg w
  calc (w:ℝ) = 1 * w := (one_mul _).symm
    _ ≤ (|Real.cos θ| + |Real.sin θ|) * w := mul_le_mul_of_nonneg_right h1 h2
    _ = |Real.cos θ * w| + |Real.sin θ * w| := by rw [abs_mul, abs_mul, Nat.abs_cast]; ring

/-- At rotation `180·k` degrees the bounding box of an integer-sized image is
the image size itself. -/
theorem getRotatedSize_rot_int_mul_180 (w h : ℕ) (k : ℤ) :
    getRotatedSize w h (180 * k) = ((w : ℤ), (h : ℤ)) := by
  have hk : (180 : ℝ) * (k : ℝ) * Real.pi / 180 = (k : ℝ) * Real.pi := by ring
  rw [getRotatedSize_def, hk]
  simp [abs_mul, Real.abs_cos_int_mul_pi, Real.sin_int_mul_pi, Nat.abs_cast]

/-- C6 counterexample: the claim asserts the bounding box is `≥ (w, h)`
componentwise for every `w`, `h`, `θ`, but at `w = 100`, `h = 1`, `θ = 90`
the box is `(1, 100)`, whose first component is below 100. -/
theorem c6_counterexample :
    ¬ ((100 : ℤ) ≤ (getRotatedSize 100 1 90).1 ∧
       (1 : ℤ) ≤ (getRotatedSize 100 1 90).2) := by
  have h := getRotatedSize_rot_ninety 100 1
  push_cast at h
  rw [h]
  norm_num

/-- C6 (amended): for square inputs `w = h`, the bounding box is `≥ (w, w)`
componentwise for every rotation `θ`, and equals `(w, w)` exactly when
`θ ≡ 0 (mod 180)`. -/
theorem c6_bounding_box_square (w : ℕ) (θ : ℝ) :
    ((w : ℤ) ≤ (getRotatedSize w w θ).1 ∧ (w : ℤ) ≤ (getRotatedSize w w θ).2) ∧
    (∀ k : ℤ, getRotatedSize w w (180 * k) = ((w : ℤ), (w : ℤ))) := by
  refine ⟨⟨?_, ?_⟩, fun k => getRotatedSize_rot_int_mul_180 w w k⟩
  · rw [getRotatedSize_def]
    calc (w : ℤ) = ⌈((w : ℕ) : ℝ)⌉ := (Int.ceil_natCast w).symm
      _ ≤ _ := Int.ceil_le_ceil (le_rotated_side _ w)
  · rw [getRotatedSize_def]
    calc (w : ℤ) = ⌈((w : ℕ) : ℝ)⌉ := (Int.ceil_natCast w).symm
      _ ≤ _ := Int.ceil_le_ceil (by
        have := le_rotated_side (θ * Real.pi / 180) w
        rw [abs_mul, abs_mul] at this ⊢
        linarith [this])

/-- Concrete instance of C6 (amended) at `w = 4`, `θ = 90`, `k = 1`. -/
theorem c6_witness :
    ((4 : ℤ) ≤ (getRotatedSize 4 4 90).1 ∧ (4 : ℤ) ≤ (getRotatedSize 4 4 90).2) ∧
    getRotatedSize 4 4 (180 * (1 : ℤ)) = ((4 : ℤ), (4 : ℤ)) := by
  have h := c6_bounding_box_square 4 90
  exact ⟨by exact_mod_cast h.1, by exact_mod_cast h.2 1⟩

/-- Inverse of the canvas transform set up in `getCroppedImg`
(src/src/context/AuthContext.tsx, lines 200-208): translate to buffer
centre, rotate by `rotation` degrees, flip, translate back by half the
source dimensions.  Given a point of the intermediate buffer, returns the
corresponding point of the source image. -/
noncomputable def invMap (rotation : ℝ) (fh fv : Bool) (w h bw bh : ℕ)
    (q : ℝ × ℝ) : ℝ × ℝ :=
  let rotRad := rotation * Real.pi / 180
  let dx := q.1 - bw / 2
  let dy := q.2 - bh / 2
  let rx := Real.cos rotRad * dx + Real.sin rotRad * dy
  let ry := -(Real.sin rotRad) * dx + Real.cos rotRad * dy
  let fx := if fh then -rx else rx
  let fy := if fv then -ry else ry
  (fx + w / 2, fy + h / 2)

/-- The intermediate buffer of `getCroppedImg` (src/src/context/AuthContext.tsx,
lines 186-212): sized by `getRotatedSize`, filled opaque white, then the
source image drawn under the rotation/flip transform.  Rasterisation is
modelled as exact nearest-neighbour sampling of pixel centres: a buffer
pixel takes the source pixel its centre maps back onto, and stays white
where the inverse image falls outside the source. -/
noncomputable def renderBuffer (img : Image) (rotation : ℝ) (fh fv : Bool) : Image :=
  let sz := getRotatedSize img.width img.height rotation
  let bw := sz.1.toNat
  let bh := sz.2.toNat
  { width := bw
    height := bh
    px := fun x y =>
      let p := invMap rotation fh fv img.width img.height bw bh
        ((x : ℝ) + 1/2, (y : ℝ) + 1/2)
      let c := ⌊p.1⌋
      let r := ⌊p.2⌋
      if 0 ≤ c ∧ c < (img.width : ℤ) ∧ 0 ≤ r ∧ r < (img.height : ℤ) then
        img.px c r
      else white }

/-- The output stage of `getCroppedImg` (src/src/context/AuthContext.tsx,
lines 214-236): an output canvas of exactly `crop.width × crop.height`,
filled opaque white, into which the sub-rectangle of the intermediate
buffer at `(crop.x, crop.y)` is copied; where the sub-rectangle falls
outside the buffer the drawing primitive clips and the white background
remains. -/
def cropStage (buffer : Image) (crop : Area) : Image :=
  { width := crop.width
    height := crop.height
    px := fun x y =>
      if 0 ≤ crop.x + x ∧ crop.x + x < (buffer.width : ℤ) ∧
         0 ≤ crop.y + y ∧ crop.y + y < (buffer.height : ℤ) then
        buffer.px (crop.x + x) (crop.y + y)
      else white }

/-- The pixel-level composition performed by `getCroppedImg`
(src/src/context/AuthContext.tsx, lines 177-236): intermediate rotated/
flipped buffer, then crop extraction. -/
noncomputable def getCroppedImgPixels (img : Image) (crop : Area) (rotation : ℝ)
    (fh fv : Bool) : Image :=
  cropStage (renderBuffer img rotation fh fv) crop

/-- A concrete 10×10 source image used to instantiate theorems. -/
def testImg10 : Image :=
  { width := 10, height := 10, px := fun x y => ⟨x.toNat % 256, y.toNat % 256, 0⟩ }

/-- A concrete 200×200 source image used to instantiate theorems. -/
def testImg200 : Image :=
  { width := 200, height := 200, px := fun x y => ⟨x.toNat % 256, y.toNat % 256, 0⟩ }

/-- At rotation 0 the intermediate buffer has the source dimensions. -/
theorem renderBuffer_dims_rot_zero (img : Image) (fh fv : Bool) :
    (renderBuffer img 0 fh fv).width = img.width ∧
    (renderBuffer img 0 fh fv).height = img.height := by
  constructor <;> simp [renderBuffer, getRotatedSize_rot_zero]

/-- C2 counterexample: the claim asserts that a crop rectangle lying
outside the intermediate buffer makes `getCroppedImg` fail, but on a 10×10
source at rotation 0 (buffer 10×10) the fully-out-of-bounds crop
`{x:100, y:100, w:5, h:5}` still yields an output buffer of the requested
5×5 size, white at the origin: no bounds check exists in the code. -/
theorem c2_counterexample :
    ((renderBuffer testImg10 0 false false).width = 10 ∧
     (renderBuffer testImg10 0 false false).height = 10) ∧
    (getCroppedImgPixels testImg10 ⟨100, 100, 5, 5⟩ 0 false false).width = 5 ∧
    (getCroppedImgPixels testImg10 ⟨100, 100, 5, 5⟩ 0 false false).height = 5 ∧
    (getCroppedImgPixels testImg10 ⟨100, 100, 5, 5⟩ 0 false false).px 0 0 = white := by
  have hd := renderBuffer_dims_rot_zero testImg10 false false
  refine ⟨⟨hd.1, hd.2⟩, rfl, rfl, ?_⟩
  show (cropStage (renderBuffer testImg10 0 false false) ⟨100, 100, 5, 5⟩).px 0 0 = white
  rw [cropStage]
  simp only
  rw [if_neg]
  rw [hd.1, hd.2]
  simp only [testImg10]
  intro h
  omega

/-- C2 (amended): `getCroppedImg` performs no bounds check on the crop
rectangle; whenever the crop rectangle is not fully contained in the
intermediate buffer (it lies partially or fully outside it), the render
still succeeds, producing an output buffer of exactly
`crop.width × crop.height` in which every pixel not covered by the buffer
remains opaque white. -/
theorem c2_no_bounds_check (img : Image) (crop : Area) (θ : ℝ) (fh fv : Bool)
    (_hout : ¬ (0 ≤ crop.x ∧
      crop.x + (crop.width : ℤ) ≤ ((renderBuffer img θ fh fv).width : ℤ) ∧
      0 ≤ crop.y ∧
      crop.y + (crop.height : ℤ) ≤ ((renderBuffer img θ fh fv).height : ℤ))) :
    (getCroppedImgPixels img crop θ fh fv).width = crop.width ∧
    (getCroppedImgPixels img crop θ fh fv).height = crop.height ∧
    ∀ x y : ℤ,
      ¬ (0 ≤ crop.x + x ∧ crop.x + x < ((renderBuffer img θ fh fv).width : ℤ) ∧
         0 ≤ crop.y + y ∧ crop.y + y < ((renderBuffer img θ fh fv).height : ℤ)) →
      (getCroppedImgPixels img crop θ fh fv).px x y = white := by
  refine ⟨rfl, rfl, fun x y hxy => ?_⟩
  show (cropStage (renderBuffer img θ fh fv) crop).px x y = white
  rw [cropStage]
  simp only
  rw [if_neg hxy]

/-- Concrete instance of C2 (amended) on the 10×10 test image with the
partially-outside crop at origin (5, 5) of size 10×10 (its right and
bottom halves hang beyond the 10×10 buffer): the output keeps the
requested 10×10 size and the uncovered pixel (7, 7) stays white. -/
theorem c2_witness :
    (getCroppedImgPixels testImg10 ⟨5, 5, 10, 10⟩ 0 false false).width = 10 ∧
    (getCroppedImgPixels testImg10 ⟨5, 5, 10, 10⟩ 0 false false).height = 10 ∧
    (getCroppedImgPixels testImg10 ⟨5, 5, 10, 10⟩ 0 false false).px 7 7 = white := by
  have hd := renderBuffer_dims_rot_zero testImg10 false false
  have h := c2_no_bounds_check testImg10 ⟨5, 5, 10, 10⟩ 0 false false
    (by rw [hd.1, hd.2]; simp only [testImg10]; intro hcon; omega)
  exact ⟨h.1, h.2.1, h.2.2 7 7
    (by rw [hd.1, hd.2]; simp only [testImg10]; intro hcon; omega)⟩

/-- C3: every render produces an output whose dimensions are exactly the
crop rectangle's, and every output pixel not covered by the copied
sub-rectangle of the intermediate buffer keeps the opaque white
background. -/
theorem c3_output_dims_white_background (img : Image) (crop : Area) (θ : ℝ)
    (fh fv : Bool) :
    ((getCroppedImgPixels img crop θ fh fv).width = crop.width ∧
     (getCroppedImgPixels img crop θ fh fv).height = crop.height) ∧
    ∀ x y : ℤ,
      ¬ (0 ≤ crop.x + x ∧ crop.x + x < ((renderBuffer img θ fh fv).width : ℤ) ∧
         0 ≤ crop.y + y ∧ crop.y + y < ((renderBuffer img θ fh fv).height : ℤ)) →
      (getCroppedImgPixels img crop θ fh fv).px x y = white := by
  refine ⟨⟨rfl, rfl⟩, fun x y hxy => ?_⟩
  show (cropStage (renderBuffer img θ fh fv) crop).px x y = white
  rw [cropStage]
  simp only
  rw [if_neg hxy]

/-- Concrete instance of C3 on the 10×10 test image: dimensions follow the
crop rectangle and a pixel left of the copied region stays white. -/
theorem c3_witness :
    ((getCroppedImgPixels testImg10 ⟨0, 0, 5, 5⟩ 0 false false).width = 5 ∧
     (getCroppedImgPixels testImg10 ⟨0, 0, 5, 5⟩ 0 false false).height = 5) ∧
    (getCroppedImgPixels testImg10 ⟨0, 0, 5, 5⟩ 0 false false).px (-5) 0 = white := by
  have h := c3_output_dims_white_background testImg10 ⟨0, 0, 5, 5⟩ 0 false false
  exact ⟨h.1, h.2 (-5) 0 (fun hcon => absurd hcon.1 (by norm_num))⟩

/-- The floor of an integer plus one half is that integer. -/
theorem floor_add_half (n : ℤ) : ⌊(n : ℝ) + 1 / 2⌋ = n := by
  rw [Int.floor_int_add]
  norm_num [Int.floor_eq_iff, show ((0:ℤ):ℝ) = 0 by norm_num]

/-- The inverse transform at rotation 90 with no flips, in closed form. -/
theorem invMap_rot_ninety (w h bw bh : ℕ) (q : ℝ × ℝ) :
    invMap 90 false false w h bw bh q =
      (q.2 - bh / 2 + w / 2, bw / 2 - q.1 + h / 2) := by
  have h90 : (90 : ℝ) * Real.pi / 180 = Real.pi / 2 := by ring
  simp only [invMap, h90, Real.cos_pi_div_two, Real.sin_pi_div_two,
    Bool.false_eq_true, if_false]
  refine Prod.ext ?_ ?_ <;> simp

/-- Pixel lookup of the intermediate buffer of a 200×200 source rotated by
90 degrees with no flips: buffer pixel `(x, y)` is source pixel
`(y, 199 - x)`. -/
theorem renderBuffer_rot_ninety_px (img : Image)
    (hw : img.width = 200) (hh : img.height = 200)
    (x y : ℤ) (hx0 : 0 ≤ x) (hx : x < 200) (hy0 : 0 ≤ y) (hy : y < 200) :
    (renderBuffer img 90 false false).px x y = img.px y (199 - x) := by
  rw [renderBuffer]
  simp only [hw, hh]
  rw [getRotatedSize_rot_ninety]
  simp only [Int.toNat_natCast, invMap_rot_ninety]
  have e1 : (y:ℝ) + 1 / 2 - ((200:ℕ):ℝ) / 2 + ((200:ℕ):ℝ) / 2 = ((y:ℤ):ℝ) + 1 / 2 := by
    push_cast
    ring
  have e2 : ((200:ℕ):ℝ) / 2 - ((x:ℝ) + 1 / 2) + ((200:ℕ):ℝ) / 2 =
      ((199 - x : ℤ):ℝ) + 1 / 2 := by
    push_cast
    ring
  rw [e1, e2, floor_add_half, floor_add_half]
  rw [if_pos (by omega)]

/-- C7: for a 200×200 source, rotation 90°, no flips, and crop equal to the
full 200×200 bounding box at the origin, the render output at column
`199 - r`, row `c` equals the source pixel at column `c`, row `r`: the
source is rotated 90 degrees, the top row becoming the rightmost column. -/
theorem c7_rotate_ninety_permutation (img : Image)
    (hw : img.width = 200) (hh : img.height = 200)
    (r c : ℤ) (hr0 : 0 ≤ r) (hr : r < 200) (hc0 : 0 ≤ c) (hc : c < 200) :
    (getCroppedImgPixels img ⟨0, 0, 200, 200⟩ 90 false false).px (199 - r) c =
      img.px c r := by
  have hbw : (renderBuffer img 90 false false).width = 200 := by
    rw [renderBuffer]
    simp only [hw, hh]
    rw [getRotatedSize_rot_ninety]
    simp
  have hbh : (renderBuffer img 90 false false).height = 200 := by
    rw [renderBuffer]
    simp only [hw, hh]
    rw [getRotatedSize_rot_ninety]
    simp
  show (cropStage (renderBuffer img 90 false false) ⟨0, 0, 200, 200⟩).px (199 - r) c =
    img.px c r
  rw [cropStage]
  simp only
  rw [if_pos (by rw [hbw, hbh]; omega)]
  have hz1 : (0 : ℤ) + (199 - r) = 199 - r := by ring
  have hz2 : (0 : ℤ) + c = c := by ring
  rw [hz1, hz2, renderBuffer_rot_ninety_px img hw hh (199 - r) c
    (by omega) (by omega) hc0 hc]
  congr 1
  omega

/-- Concrete instance of C7 on the 200×200 test image at source row 3,
column 7. -/
theorem c7_witness :
    (getCroppedImgPixels testImg200 ⟨0, 0, 200, 200⟩ 90 false false).px 196 7 =
      testImg200.px 7 3 := by
  have h := c7_rotate_ninety_permutation testImg200 rfl rfl 3 7
    (by norm_num) (by norm_num) (by norm_num) (by norm_num)
  exact_mod_cast h

/-- The encoder check of `getCroppedImg` (src/src/context/AuthContext.tsx,
lines 238-254): `payload` is what the platform's `toDataURL` returned; an
empty string (falsy) or the degenerate placeholder `data:,` is rejected
with the encode error, anything else is returned unchanged. -/
def encodeDataUrl (payload : String) : Except String String :=
  if payload = "" ∨ payload = "data:," then
    Except.error "Failed to generate base64 image"
  else Except.ok payload

/-- C5: if the platform serialization returns an empty string or the
degenerate placeholder `data:,`, the encoder step fails with the encode
error, and a successful encode never returns either degenerate payload. -/
theorem c5_encoder_rejects_degenerate :
    (∀ payload : String, (payload = "" ∨ payload = "data:,") →
      encodeDataUrl payload = Except.error "Failed to generate base64 image") ∧
    (∀ payload out : String, encodeDataUrl payload = Except.ok out →
      out ≠ "" ∧ out ≠ "data:,") := by
  constructor
  · intro p hp
    rw [encodeDataUrl, if_pos hp]
  · intro p out h
    by_cases hp : p = "" ∨ p = "data:,"
    · rw [encodeDataUrl, if_pos hp] at h
      exact absurd h (by simp)
    · rw [encodeDataUrl, if_neg hp] at h
      cases h
      push_neg at hp
      exact hp

/-- Concrete instances of C5: both degenerate payloads are rejected. -/
theorem c5_witness :
    encodeDataUrl "data:," = Except.error "Failed to generate base64 image" ∧
    encodeDataUrl "" = Except.error "Failed to generate base64 image" :=
  ⟨c5_encoder_rejects_degenerate.1 "data:," (Or.inr rfl),
   c5_encoder_rejects_degenerate.1 "" (Or.inl rfl)⟩

/-- The interactive state of the image editor
(src/src/components/ImageEditor.tsx, lines 14-22): crop position, zoom,
rotation, flip flags, the last completed crop area, the loaded image URL,
the saving flag, whether the editor was closed, and the toast messages
shown so far (most recent first). -/
structure EditorState where
  crop : ℤ × ℤ
  zoom : ℚ
  rotation : ℤ
  flipH : Bool
  flipV : Bool
  croppedAreaPixels : Option Area
  imageUrl : Option String
  saving : Bool
  closed : Bool
  toasts : List String
deriving DecidableEq, Repr

/-- Embedding of `handleSave` (src/src/components/ImageEditor.tsx, lines 28-56).
`renderResult` models the awaited outcome of `getCroppedImg`: `ok` with the
produced data URL, or `error` with the thrown message.  On validation
failure only a toast is shown; on render/encode failure or an invalid data
URL the error toast is shown and `saving` is cleared by the `finally`
block; on success the result is handed over, a success toast shown and the
editor closed. -/
def handleSave (s : EditorState) (renderResult : Except String String) : EditorState :=
  if s.imageUrl = none ∨ s.croppedAreaPixels = none then
    { s with toasts := "Please make a selection first" :: s.toasts }
  else
    match renderResult with
    | Except.error _ =>
        { s with saving := false,
                 toasts := "Failed to save image. Please try again." :: s.toasts }
    | Except.ok croppedImage =>
        if croppedImage.startsWith "data:image/" then
          { s with saving := false, closed := true,
                   toasts := "Image saved successfully" :: s.toasts }
        else
          { s with saving := false,
                   toasts := "Failed to save image. Please try again." :: s.toasts }

/-- C4: when a save fails (render/encode threw, or the produced payload is
not a `data:image/` URL), a user-visible error toast is surfaced, the
crop, zoom, rotation and flip state as well as the crop selection are
unchanged, `saving` is cleared (back to the interactive Ready state), and
the editor is not closed/torn down. -/
theorem c4_save_failure_preserves_state (s : EditorState)
    (res : Except String String)
    (himg : s.imageUrl ≠ none) (hcrop : s.croppedAreaPixels ≠ none)
    (hfail : (∃ e, res = Except.error e) ∨
             (∃ v, res = Except.ok v ∧ v.startsWith "data:image/" = false)) :
    (handleSave s res).crop = s.crop ∧
    (handleSave s res).zoom = s.zoom ∧
    (handleSave s res).rotation = s.rotation ∧
    (handleSave s res).flipH = s.flipH ∧
    (handleSave s res).flipV = s.flipV ∧
    (handleSave s res).croppedAreaPixels = s.croppedAreaPixels ∧
    (handleSave s res).saving = false ∧
    (handleSave s res).closed = s.closed ∧
    "Failed to save image. Please try again." ∈ (handleSave s res).toasts := by
  have hcond : ¬ (s.imageUrl = none ∨ s.croppedAreaPixels = none) := by
    rintro (h | h)
    · exact himg h
    · exact hcrop h
  rcases hfail with ⟨e, rfl⟩ | ⟨v, rfl, hv⟩
  · simp [handleSave, hcond]
  · simp [handleSave, hcond, hv]

/-- A concrete pre-save editor state used to instantiate theorems. -/
def testEditorState : EditorState :=
  { crop := (3, 4), zoom := 2, rotation := 90, flipH := true, flipV := false,
    croppedAreaPixels := some ⟨0, 0, 5, 5⟩, imageUrl := some "blob:photo",
    saving := true, closed := false, toasts := [] }

/-- Concrete instance of C4: a failed render on `testEditorState` keeps all
edit state, clears `saving`, leaves the editor open and surfaces the error
toast. -/
theorem c4_witness :
    (handleSave testEditorState (Except.error "render failed")).crop =
      testEditorState.crop ∧
    (handleSave testEditorState (Except.error "render failed")).zoom =
      testEditorState.zoom ∧
    (handleSave testEditorState (Except.error "render failed")).rotation =
      testEditorState.rotation ∧
    (handleSave testEditorState (Except.error "render failed")).flipH =
      testEditorState.flipH ∧
    (handleSave testEditorState (Except.error "render failed")).flipV =
      testEditorState.flipV ∧
    (handleSave testEditorState (Except.error "render failed")).croppedAreaPixels =
      testEditorState.croppedAreaPixels ∧
    (handleSave testEditorState (Except.error "render failed")).saving = false ∧
    (handleSave testEditorState (Except.error "render failed")).closed =
      testEditorState.closed ∧
    "Failed to save image. Please try again." ∈
      (handleSave testEditorState (Except.error "render failed")).toasts :=
  c4_save_failure_preserves_state testEditorState (Except.error "render failed")
    (by simp [testEditorState]) (by simp [testEditorState])
    (Or.inl ⟨"render failed", rfl⟩)

/-- The dimension computation of `generateThumbnail`
(src/unnamed/part_000, lines 44-90): if the source height exceeds the
300-pixel maximum, scale the width by `300/height` and clamp the height to
300; otherwise keep the source dimensions. -/
def generateThumbnailDims (w h : ℚ) : ℚ × ℚ :=
  if h > 300 then ((300 / h) * w, 300) else (w, h)

/-- C9: the thumbnail height never exceeds 300, the source aspect ratio is
preserved (stated cross-multiplied), sources taller than 300 are scaled to
exactly 300 high with width scaled by `300/height`, and other sources keep
their dimensions unchanged. -/
theorem c9_thumbnail_dims (w h : ℚ) :
    (generateThumbnailDims w h).2 ≤ 300 ∧
    (generateThumbnailDims w h).1 * h = w * (generateThumbnailDims w h).2 ∧
    (300 < h → generateThumbnailDims w h = ((300 / h) * w, 300)) ∧
    (h ≤ 300 → generateThumbnailDims w h = (w, h)) := by
  by_cases hc : h > 300
  · have hne : h ≠ 0 := by
      intro h0
      rw [h0] at hc
      norm_num at hc
    refine ⟨?_, ?_, fun _ => ?_, fun hle => absurd hc (not_lt.mpr hle)⟩
    · simp [generateThumbnailDims, hc]
    · simp only [generateThumbnailDims, if_pos hc]
      field_simp
      ring
    · simp [generateThumbnailDims, hc]
  · refine ⟨?_, ?_, fun hlt => absurd hlt hc, fun _ => ?_⟩
    · simp only [generateThumbnailDims, if_neg hc]
      exact le_of_not_lt hc
    · simp only [generateThumbnailDims, if_neg hc]
    · simp [generateThumbnailDims, hc]

/-- Concrete instance of C9 at a 400×600 source: the thumbnail is 200×300.
-/
theorem c9_witness :
    generateThumbnailDims 400 600 = ((300 / 600) * 400, 300) ∧
    (generateThumbnailDims 400 600).2 ≤ 300 :=
  ⟨(c9_thumbnail_dims 400 600).2.2.1 (by norm_num), (c9_thumbnail_dims 400 600).1⟩

/-- Sanitisation `replace(/[^a-zA-Z0-9]/g, '')` as used by `generateFileName`
(src/unnamed/part_000, lines 357-358): keep only ASCII letters and digits.
-/
def sanitizeAlnum (s : String) : String :=
  String.mk (s.data.filter fun c => c.isAlpha || c.isDigit)

/-- Splitting a character list at every occurrence of a separator, the way
the JavaScript `split` method does on a single-character separator: the
result is never empty, and splitting the empty string gives `[[]]`. -/
def splitOnChar (sep : Char) : List Char -> List (List Char)
  | [] => [[]]
  | c :: rest =>
    let r := splitOnChar sep rest
    if c = sep then [] :: r
    else
      match r with
      | [] => [[c]]
      | h :: t => (c :: h) :: t

/-- Embedding of `file.name.split('.').pop() || ''` as used by `generateFileName`
(src/unnamed/part_000, line 356): the last dot-separated component of the
file name (the whole name when there is no dot, empty when the name ends
in a dot). -/
def fileExtension (name : String) : String :=
  String.mk ((splitOnChar '.' name.data).getLastD [])

/-- Embedding of `uuid.slice(0, 8)` as used by `generateFileName`
(src/unnamed/part_000, line 359): the first `n` characters of a string. -/
def takeChars (s : String) (n : ℕ) : String :=
  String.mk (s.data.take n)

/-- Shallow embedding of `generateFileName` (src/unnamed/part_000, lines
354-362): `sanitizedPatientName_sanitizedGroup_year_id.extension`, where
`id` is the first 8 characters of the supplied UUID. -/
def generateFileName (fileName patientName group : String) (year : ℕ)
    (uuid : String) : String :=
  sanitizeAlnum patientName ++ "_" ++ sanitizeAlnum group ++ "_" ++
    Nat.repr year ++ "_" ++ takeChars uuid 8 ++ "." ++ fileExtension fileName

/-- A character that is neither a space nor a path separator. -/
def isSafeChar (c : Char) : Bool :=
  !(c == ' ' || c == '/' || c == '\\')

/-- Every character produced by `Nat.toDigitsCore` at base 10 from an
all-digit accumulator is a decimal digit. -/
theorem toDigitsCore_digit_chars (fuel : ℕ) :
    ∀ (n : ℕ) (ds : List Char), (∀ c ∈ ds, c.isDigit = true) →
    ∀ c ∈ Nat.toDigitsCore 10 fuel n ds, c.isDigit = true := by
  induction fuel with
  | zero =>
    intro n ds hds c hc
    simp only [Nat.toDigitsCore] at hc
    exact hds c hc
  | succ fuel ih =>
    intro n ds hds c hc
    have hd : (Nat.digitChar (n % 10)).isDigit = true := by
      have h10 : n % 10 < 10 := Nat.mod_lt _ (by norm_num)
      interval_cases h : n % 10 <;> decide
    simp only [Nat.toDigitsCore] at hc
    by_cases hz : n / 10 = 0
    · rw [if_pos hz] at hc
      rcases List.mem_cons.mp hc with rfl | hmem
      · exact hd
      · exact hds c hmem
    · rw [if_neg hz] at hc
      exact ih (n / 10) (Nat.digitChar (n % 10) :: ds)
        (fun d hdm => by
          rcases List.mem_cons.mp hdm with rfl | hmem
          · exact hd
          · exact hds d hmem) c hc

/-- Every character of the decimal representation of a natural number is a
decimal digit. -/
theorem repr_chars_digit (y : ℕ) : ∀ c ∈ (Nat.repr y).data, c.isDigit = true := by
  intro c hc
  have hdata : (Nat.repr y).data = Nat.toDigitsCore 10 (y + 1) y [] := rfl
  rw [hdata] at hc
  exact toDigitsCore_digit_chars (y + 1) y [] (by simp) c hc

/-- ASCII letters and digits are neither spaces nor path separators. -/
theorem alnum_isSafe (c : Char) (h : (c.isAlpha || c.isDigit) = true) :
    isSafeChar c = true := by
  have h1 : c ≠ ' ' := by rintro rfl; exact absurd h (by decide)
  have h2 : c ≠ '/' := by rintro rfl; exact absurd h (by decide)
  have h3 : c ≠ '\\' := by rintro rfl; exact absurd h (by decide)
  simp [isSafeChar, h1, h2, h3]

/-- C10: the stored file name has the exact shape
`sanitizedPatientName_sanitizedGroup_year_id.extension`; the sanitized
parts contain only characters from `[A-Za-z0-9]`; and, provided the first
8 characters of the UUID are themselves free of spaces and path
separators (uuidv4 output is hex digits and hyphens), the whole name
outside the original extension contains no space, `/` or `\`. -/
theorem c10_generateFileName_shape (f p g : String) (year : ℕ) (uuid : String) :
    generateFileName f p g year uuid =
      sanitizeAlnum p ++ "_" ++ sanitizeAlnum g ++ "_" ++ Nat.repr year ++ "_" ++
        takeChars uuid 8 ++ "." ++ fileExtension f ∧
    (∀ c ∈ (sanitizeAlnum p).data, (c.isAlpha || c.isDigit) = true) ∧
    (∀ c ∈ (sanitizeAlnum g).data, (c.isAlpha || c.isDigit) = true) ∧
    ((∀ c ∈ (takeChars uuid 8).data, isSafeChar c = true) →
      ∀ c ∈ (sanitizeAlnum p ++ "_" ++ sanitizeAlnum g ++ "_" ++ Nat.repr year ++
        "_" ++ takeChars uuid 8).data, isSafeChar c = true) := by
  refine ⟨rfl, ?_, ?_, ?_⟩
  · intro c hc
    exact (List.mem_filter.mp hc).2
  · intro c hc
    exact (List.mem_filter.mp hc).2
  · intro hu c hc
    simp only [String.data_append, List.mem_append, List.mem_singleton] at hc
    rcases hc with (((((hp | hs1) | hg) | hs2) | hy) | hs3) | h8
    · exact alnum_isSafe c (List.mem_filter.mp hp).2
    · subst hs1
      decide
    · exact alnum_isSafe c (List.mem_filter.mp hg).2
    · subst hs2
      decide
    · exact alnum_isSafe c (by rw [repr_chars_digit year c hy, Bool.or_true])
    · subst hs3
      decide
    · exact hu c h8

/-- Concrete instance of C10: a patient name and group containing spaces
and punctuation produce `DrSmith_Before_2024_abcd1234.jpg`, and the
character at the head of the produced base name is safe. -/
theorem c10_witness :
    (∀ c ∈ (takeChars "abcd1234-56" 8).data, isSafeChar c = true) ∧
    generateFileName "photo 1.jpg" "Dr. Smith" "Before" 2024 "abcd1234-56" =
      sanitizeAlnum "Dr. Smith" ++ "_" ++ sanitizeAlnum "Before" ++ "_" ++
        Nat.repr 2024 ++ "_" ++ takeChars "abcd1234-56" 8 ++ "." ++
        fileExtension "photo 1.jpg" ∧
    isSafeChar 'D' = true ∧
    generateFileName "photo 1.jpg" "Dr. Smith" "Before" 2024 "abcd1234-56" =
      "DrSmith_Before_2024_abcd1234.jpg" :=
  ⟨by decide,
   (c10_generateFileName_shape "photo 1.jpg" "Dr. Smith" "Before" 2024 "abcd1234-56").1,
   (c10_generateFileName_shape "photo 1.jpg" "Dr. Smith" "Before" 2024
     "abcd1234-56").2.2.2 (by decide) 'D' (by decide),
   by decide⟩
